import Mathlib

/-!
Verification of the picoclaw MCP client subsystem, shallowly embedded from
the Go sources: `pkg/mcp/types.go`, `pkg/mcp/protocol.go`,
`pkg/mcp/wrapper.go`, `pkg/mcp/registry.go`, `pkg/mcp/transport/stdio.go`
and the session client (`Client`).

JSON values are modelled as a first-order datatype; JSON numbers are
modelled as integers (every claim under study involves only integral
numbers).  Where Go's `encoding/json` semantics matter (zero values for
absent fields, `null` decoding as a no-op, type errors), the embedding
follows the documented stdlib behaviour.
-/

/-- A parsed JSON value.  Mirrors Go's generic `interface{}` decoding
(objects as field lists, arrays as lists). -/
inductive JsonVal where
  | null : JsonVal
  | bool : Bool → JsonVal
  | num : Int → JsonVal
  | str : String → JsonVal
  | arr : List JsonVal → JsonVal
  | obj : List (String × JsonVal) → JsonVal
  deriving Repr

/-- Field lookup in a JSON object; mirrors Go's `encoding/json` rule that
for a duplicated key the last occurrence wins. -/
def jLookup (fs : List (String × JsonVal)) (k : String) : Option JsonVal :=
  match fs with
  | [] => none
  | (k', v) :: rest =>
      match jLookup rest k with
      | some w => some w
      | none => if k' = k then some v else none

/-- Decoding a `string`-typed Go struct field: absent or `null` leaves the
zero value `""`; a JSON string is taken verbatim; any other value is a
type error (`none`). -/
def goStrField (fs : List (String × JsonVal)) (k : String) : Option String :=
  match jLookup fs k with
  | none => some ""
  | some .null => some ""
  | some (.str s) => some s
  | some _ => none

/-- Decoding an `int64`-typed Go struct field: absent or `null` leaves the
zero value `0`; a JSON number is taken verbatim; any other value is a
type error. -/
def goIntField (fs : List (String × JsonVal)) (k : String) : Option Int :=
  match jLookup fs k with
  | none => some 0
  | some .null => some 0
  | some (.num n) => some n
  | some _ => none

/-- Decoding a `bool`-typed Go struct field. -/
def goBoolField (fs : List (String × JsonVal)) (k : String) : Option Bool :=
  match jLookup fs k with
  | none => some false
  | some .null => some false
  | some (.bool b) => some b
  | some _ => none

/-- `TextContent` from `types.go`: `{type, text}`. -/
structure TextContent where
  type : String
  text : String
  deriving Repr, DecidableEq

/-- `ImageContent` from `types.go`: `{type, data, mimeType}`. -/
structure ImageContent where
  type : String
  data : String
  mimeType : String
  deriving Repr, DecidableEq

/-- `ResourceContent` from `types.go`: `{uri, mimeType, text, blob}`.
The `blob` field is `[]byte` in Go, decoded from a base64 string; it is
kept here as the undecoded string (base64 well-formedness abstracted). -/
structure ResourceContent where
  uri : String
  mimeType : String
  text : String
  blob : Option String
  deriving Repr, DecidableEq

/-- Go `json.Unmarshal` into `TextContent`: succeeds on objects (unknown
fields ignored, absent fields zeroed) and on `null` (no-op); fails on any
other JSON value. -/
def TextContent.unmarshal (v : JsonVal) : Option TextContent :=
  match v with
  | .null => some ⟨"", ""⟩
  | .obj fs => do
      let ty ← goStrField fs "type"
      let tx ← goStrField fs "text"
      some ⟨ty, tx⟩
  | _ => none

/-- Go `json.Unmarshal` into `ImageContent`. -/
def ImageContent.unmarshal (v : JsonVal) : Option ImageContent :=
  match v with
  | .null => some ⟨"", "", ""⟩
  | .obj fs => do
      let ty ← goStrField fs "type"
      let d ← goStrField fs "data"
      let m ← goStrField fs "mimeType"
      some ⟨ty, d, m⟩
  | _ => none

/-- Go `json.Unmarshal` into `ResourceContent`. -/
def ResourceContent.unmarshal (v : JsonVal) : Option ResourceContent :=
  match v with
  | .null => some ⟨"", "", "", none⟩
  | .obj fs => do
      let u ← goStrField fs "uri"
      let m ← goStrField fs "mimeType"
      let tx ← goStrField fs "text"
      let bl ← match jLookup fs "blob" with
        | none => some none
        | some .null => some none
        | some (.str s) => some (some s)
        | some _ => none
      some ⟨u, m, tx, bl⟩
  | _ => none

/-- One element of `ToolCallResult.Content` (`[]interface{}` in Go): the
dynamic types the decoder can place there. `raw` is the generic
`interface{}` fallback. -/
inductive ContentBlock where
  | text : TextContent → ContentBlock
  | image : ImageContent → ContentBlock
  | resource : ResourceContent → ContentBlock
  | raw : JsonVal → ContentBlock
  deriving Repr

/-- `ToolCallResult` from `types.go`: `{content, isError}`. -/
structure ToolCallResult where
  content : List ContentBlock
  isError : Bool
  deriving Repr

/-- Third attempt of the array-branch item decoder (`types.go` 108-116):
`ResourceContent` with non-empty URI, else the raw value. -/
def decodeItemResource (item : JsonVal) : ContentBlock :=
  match ResourceContent.unmarshal item with
  | some r => if r.uri ≠ "" then .resource r else .raw item
  | none => .raw item

/-- Second attempt of the array-branch item decoder (`types.go` 103-107):
`ImageContent` with `type == "image"`, else fall through. -/
def decodeItemImage (item : JsonVal) : ContentBlock :=
  match ImageContent.unmarshal item with
  | some im => if im.type = "image" then .image im else decodeItemResource item
  | none => decodeItemResource item

/-- Array-branch item decoder (`types.go` 97-117): try `TextContent` with
`type == "text"`, then image, then resource, else keep the raw value. -/
def decodeContentItem (item : JsonVal) : ContentBlock :=
  match TextContent.unmarshal item with
  | some t => if t.type = "text" then .text t else decodeItemImage item
  | none => decodeItemImage item

/-- The `contentWrapper` decode of the object branch (`types.go` 121-131):
`content` must be an array (decoded generically, so each element is a raw
value) or absent, `isError` a bool or absent; otherwise the wrapper
unmarshal fails. -/
def decodeWrapperContent (fs : List (String × JsonVal)) :
    Option (List ContentBlock) :=
  match jLookup fs "content" with
  | none => some []
  | some .null => some []
  | some (.arr xs) => some (xs.map ContentBlock.raw)
  | some _ => none

/-- `ToolCallResult.UnmarshalJSON` (`types.go` 86-134).  The three
branches (bare string, array, object-with-content) are mutually exclusive
by JSON shape; every path returns `nil` (here `.ok`), so failure is
impossible.  `null` is accepted by the string branch as a no-op leaving
the zero string (Go `json.Unmarshal` semantics). -/
def ToolCallResult.unmarshalJSON (data : JsonVal) :
    Except String ToolCallResult :=
  match data with
  | .null => .ok ⟨[.text ⟨"text", ""⟩], false⟩
  | .str s => .ok ⟨[.text ⟨"text", s⟩], false⟩
  | .arr items => .ok ⟨items.map decodeContentItem, false⟩
  | .obj fs =>
      match decodeWrapperContent fs, goBoolField fs "isError" with
      | some c, some e => .ok ⟨c, e⟩
      | _, _ => .ok ⟨[], false⟩
  | _ => .ok ⟨[], false⟩

/-- Text contributed by one content block in `GetText` (`types.go`
137-152): a `TextContent` value contributes its `text` (no `type` check in
the struct case, mirroring the source); a raw map contributes its `text`
when `type == "text"` and both fields are strings; everything else
contributes nothing. -/
def ContentBlock.textOf : ContentBlock → String
  | .text t => t.text
  | .raw (.obj fs) =>
      match jLookup fs "type", jLookup fs "text" with
      | some (.str ty), some (.str tx) => if ty = "text" then tx else ""
      | _, _ => ""
  | _ => ""

/-- `ToolCallResult.GetText`: concatenation of the text of each content
block, in order. -/
def ToolCallResult.getText (t : ToolCallResult) : String :=
  String.join (t.content.map ContentBlock.textOf)

/-- Total projection of the (never-failing) decode. -/
def decodeToolCallResult (v : JsonVal) : ToolCallResult :=
  match ToolCallResult.unmarshalJSON v with
  | .ok r => r
  | .error _ => ⟨[], false⟩

/-- `RPCError` from `protocol.go`: `{code, message, data}`. -/
structure RPCError where
  code : Int
  message : String
  data : Option JsonVal
  deriving Repr

/-- `JSONRPCResponse` from `protocol.go`: `{jsonrpc, id, result, error}`.
`result` is a raw message (`none` when absent), `error` a nullable
pointer. -/
structure JSONRPCResponse where
  jsonrpc : String
  id : Int
  result : Option JsonVal
  error : Option RPCError
  deriving Repr

/-- Decode of the `error` field: absent or `null` gives a nil pointer; an
object decodes into `RPCError` (`data` kept raw); anything else is a type
error. -/
def decodeErrField (fs : List (String × JsonVal)) :
    Except String (Option RPCError) :=
  match jLookup fs "error" with
  | none => .ok none
  | some .null => .ok none
  | some (.obj efs) =>
      match goIntField efs "code", goStrField efs "message" with
      | some c, some m => .ok (some ⟨c, m, jLookup efs "data"⟩)
      | _, _ => .error "cannot unmarshal error"
  | some _ => .error "cannot unmarshal error"

/-- `JSONRPCResponse.UnmarshalJSON` (`protocol.go` 82-86): a plain
aliased `json.Unmarshal` into the struct — no `jsonrpc` check and no
result/error exclusivity check.  Absent fields take zero values. -/
def JSONRPCResponse.unmarshalJSON (v : JsonVal) :
    Except String JSONRPCResponse :=
  match v with
  | .null => .ok ⟨"", 0, none, none⟩
  | .obj fs =>
      match goStrField fs "jsonrpc", goIntField fs "id", decodeErrField fs with
      | some j, some i, .ok e => .ok ⟨j, i, jLookup fs "result", e⟩
      | _, _, _ => .error "cannot unmarshal response"
  | _ => .error "cannot unmarshal response"

example :
    ToolCallResult.unmarshalJSON (.str "hello") =
      .ok ⟨[.text ⟨"text", "hello"⟩], false⟩ := rfl

example :
    (decodeToolCallResult
      (.arr [.obj [("type", .str "text"), ("text", .str "a")],
             .obj [("type", .str "text"), ("text", .str "b")]])).getText
      = "ab" := rfl

example :
    ToolCallResult.unmarshalJSON (.obj [("content", .arr []), ("isError", .bool true)]) =
      .ok ⟨[], true⟩ := rfl

/-- Modelled from the spec: the host tools package (`pkg/tools`) is not
under src/.  Per §6, `Execute` returns a host-defined `ToolResult`
carrying either success text or an error marker. -/
structure ToolResult where
  text : String
  isError : Bool
  deriving Repr, DecidableEq

/-- Modelled from the spec: `tools.ErrorResult` builds an error-tagged
host tool result carrying the message. -/
def ErrorResult (msg : String) : ToolResult := ⟨msg, true⟩

/-- Modelled from the spec: `tools.NewToolResult` builds a success-tagged
host tool result carrying the text. -/
def NewToolResult (text : String) : ToolResult := ⟨text, false⟩

/-- The response-handling tail of `Client.CallTool` (client source
184-201), applied to the decoded response envelope of one `tools/call`
round trip: a non-nil `error` surfaces only `error.Message` as
`tools/call error: message`; otherwise the raw result is decoded as a
`ToolCallResult` (empty raw result is a JSON decode error) and its
flattened text is returned — the decoded `isError` flag is not
consulted. -/
def callToolHandle (resp : JSONRPCResponse) : Except String String :=
  match resp.error with
  | some e => .error ("tools/call error: " ++ e.message)
  | none =>
      match resp.result with
      | none => .error "failed to unmarshal tools/call result: unexpected end of JSON input"
      | some v =>
          match ToolCallResult.unmarshalJSON v with
          | .error e => .error ("failed to unmarshal tools/call result: " ++ e)
          | .ok r => .ok r.getText

/-- `ToolWrapper.Execute` (`wrapper.go` 41-47) given the outcome of
`Client.CallTool`: an error becomes an error-tagged result with message
`MCP tool name error: err`; a success becomes a success-tagged result with
the returned text. -/
def ToolWrapper.Execute (toolName : String) (callOutcome : Except String String) :
    ToolResult :=
  match callOutcome with
  | .error e => ErrorResult ("MCP tool " ++ toolName ++ " error: " ++ e)
  | .ok text => NewToolResult text

/-- `math.MaxInt64`, the largest value of Go's `int64`. -/
def INT64_MAX : Int := 9223372036854775807

/-- Go `int64` increment: wraps to the minimum at the maximum, otherwise
adds one (two's-complement wraparound of `c.requestID++`). -/
def int64Inc (n : Int) : Int :=
  if n = INT64_MAX then -9223372036854775808 else n + 1

/-- Session-visible state of a `Client` (client source 16-24) together
with the closed flag of its `STDIOTransport` (`stdio.go` 24): the mutable
state the verified operations read and write.  The tool cache and
capabilities do not influence any claim under study and are omitted. -/
structure ClientState where
  requestID : Int
  initialized : Bool
  transportClosed : Bool
  deriving Repr, DecidableEq

/-- A freshly constructed client (`NewClient`): counter 0, not
initialized, transport open. -/
def ClientState.start : ClientState := ⟨0, false, false⟩

/-- Observable transport actions: a frame handed to `Send` and written to
the child's stdin (with its optional `id` and method), closing stdin, and
waiting on the child process. -/
inductive WireEvent where
  | sent : Option Int → String → WireEvent
  | stdinClosed : WireEvent
  | processWaited : WireEvent
  deriving Repr, DecidableEq

/-- Environment behaviour of the server during one correlated round trip:
whether `Receive` yields a frame, whether that frame carries a non-nil
`error`, and whether its `result` decodes into the expected result type. -/
structure ServerBehavior where
  recvOk : Bool
  respError : Bool
  resultOk : Bool
  deriving Repr, DecidableEq

/-- One public operation invoked on a session, with the server behaviour
its round trip encounters. -/
inductive SessionOp where
  | Initialize : ServerBehavior → SessionOp
  | ListTools : ServerBehavior → SessionOp
  | CallTool : ServerBehavior → SessionOp
  | Shutdown : SessionOp
  | Close : SessionOp
  deriving Repr, DecidableEq

/-- One step of the session client (client source 53-257 with the
transport semantics of `stdio.go`): the next state, whether the operation
returned without error, and the transport actions it performed, in order.

`Initialize` increments the counter unconditionally, sends when the
transport is open (`Send` fails immediately on a closed transport,
`stdio.go` 94-96), and marks the session initialized plus sends the
id-less `notifications/initialized` frame only when the whole round trip
succeeds.  `ListTools`/`CallTool` fail up front when not initialized
(client source 116-118, 161-163); otherwise they increment and run one
round trip.  `Shutdown` is a no-op when not initialized; otherwise it
increments, sends best-effort, and closes the transport (close of an open
transport closes stdin then waits on the child, `stdio.go` 144-181; close
of a closed transport returns immediately).  `Close` clears the
initialized flag and closes the transport; it always reports success. -/
def stepOp (s : ClientState) (op : SessionOp) : ClientState × Bool × List WireEvent :=
  match op with
  | .Initialize b =>
      let rid := int64Inc s.requestID
      let s' := { s with requestID := rid }
      if s.transportClosed then (s', false, [])
      else if !b.recvOk then (s', false, [.sent (some rid) "initialize"])
      else if b.respError then (s', false, [.sent (some rid) "initialize"])
      else if !b.resultOk then (s', false, [.sent (some rid) "initialize"])
      else ({ s' with initialized := true }, true,
            [.sent (some rid) "initialize", .sent none "notifications/initialized"])
  | .ListTools b =>
      if !s.initialized then (s, false, [])
      else
        let rid := int64Inc s.requestID
        let s' := { s with requestID := rid }
        if s.transportClosed then (s', false, [])
        else if !b.recvOk then (s', false, [.sent (some rid) "tools/list"])
        else if b.respError then (s', false, [.sent (some rid) "tools/list"])
        else if !b.resultOk then (s', false, [.sent (some rid) "tools/list"])
        else (s', true, [.sent (some rid) "tools/list"])
  | .CallTool b =>
      if !s.initialized then (s, false, [])
      else
        let rid := int64Inc s.requestID
        let s' := { s with requestID := rid }
        if s.transportClosed then (s', false, [])
        else if !b.recvOk then (s', false, [.sent (some rid) "tools/call"])
        else if b.respError then (s', false, [.sent (some rid) "tools/call"])
        else if !b.resultOk then (s', false, [.sent (some rid) "tools/call"])
        else (s', true, [.sent (some rid) "tools/call"])
  | .Shutdown =>
      if !s.initialized then (s, true, [])
      else
        let rid := int64Inc s.requestID
        let s' := { s with requestID := rid }
        if s.transportClosed then (s', true, [])
        else ({ s' with transportClosed := true }, true,
              [.sent (some rid) "shutdown", .stdinClosed, .processWaited])
  | .Close =>
      if s.transportClosed then ({ s with initialized := false }, true, [])
      else ({ s with initialized := false, transportClosed := true }, true,
            [.stdinClosed, .processWaited])

/-- Run a sequence of operations from a state, accumulating the transport
actions in order. -/
def runFrom (s : ClientState) (ops : List SessionOp) : ClientState × List WireEvent :=
  match ops with
  | [] => (s, [])
  | op :: rest =>
      let r1 := stepOp s op
      let r2 := runFrom r1.1 rest
      (r2.1, r1.2.2 ++ r2.2)

/-- Run a sequence of operations on a fresh session. -/
def runOps (ops : List SessionOp) : ClientState × List WireEvent :=
  runFrom ClientState.start ops

/-- The request ids carried by the correlated requests written to the
wire, in order of emission (frames without an id are notifications). -/
def wireRequestIds (evs : List WireEvent) : List Int :=
  evs.filterMap (fun e =>
    match e with
    | .sent (some i) _ => some i
    | _ => none)

/-- `Client.IsInitialized` (client source 217-219): it reads the request
counter, not the `initialized` flag. -/
def ClientState.IsInitialized (s : ClientState) : Bool :=
  decide (0 < s.requestID)

/-- Outcome of `Manager.connectServer` for one descriptor, as determined
by the environment: the connect or the initialize handshake fails, or the
whole sequence succeeds and `ListTools` caches the given tool names (a
failed `ListTools` is only warned about and leaves the cache empty, which
is the `ok []` case). -/
inductive ConnOutcome where
  | connectFail : ConnOutcome
  | initFail : ConnOutcome
  | ok : List String → ConnOutcome
  deriving Repr, DecidableEq

/-- A configured MCP server descriptor (`config.MCPServerConfig` as
consumed by `Manager.Start`), paired with the behaviour its spawn
attempt meets. -/
structure ServerDesc where
  name : String
  enabled : Bool
  outcome : ConnOutcome
  deriving Repr, DecidableEq

/-- Whether the descriptor's connect-and-initialize attempt succeeds. -/
def ConnOutcome.succeeded : ConnOutcome → Bool
  | .ok _ => true
  | _ => false

/-- The tools cached on success. -/
def ConnOutcome.toolsOf : ConnOutcome → List String
  | .ok ts => ts
  | _ => []

/-- `ToolWrapper.Name` (`wrapper.go` 26-28): the namespaced tool name. -/
def wrapperName (server tool : String) : String :=
  "mcp_" ++ server ++ "_" ++ tool

/-- Go map assignment `m.clients[name] = client`: replace the entry if the
key is present, otherwise append. -/
def mapInsert (k : String) (v : List String) :
    List (String × List String) → List (String × List String)
  | [] => [(k, v)]
  | (k', v') :: rest =>
      if k' = k then (k, v) :: rest else (k', v') :: mapInsert k v rest

/-- The manager's state: the client map (name, cached tools) and the tool
registry.  The registry's `Register` is modelled from the spec (the
`pkg/tools` registry is not under src/): registering adds the wrapper's
namespaced name. -/
structure ManagerState where
  clients : List (String × List String)
  registry : List String
  deriving Repr, DecidableEq

/-- One iteration of the loop in `Manager.Start` (`registry.go` 38-54):
skip disabled descriptors, log-and-continue on a failed connect or
initialize, and on success store the client and register its wrapped
tools. -/
def startStep (m : ManagerState) (d : ServerDesc) : ManagerState :=
  if !d.enabled then m
  else
    match d.outcome with
    | .ok ts => ⟨mapInsert d.name ts m.clients, m.registry ++ ts.map (wrapperName d.name)⟩
    | _ => m

/-- `Manager.Start` (`registry.go` 32-59): iterate over the configured
descriptors and return `nil` (here `true`) unconditionally. -/
def managerStart (descs : List ServerDesc) : ManagerState × Bool :=
  (descs.foldl startStep ⟨[], []⟩, true)

/-- `NewSTDIOTransport` (`stdio.go` 28-31) sets `cmd.Env` to the
descriptor's env slice verbatim, combined with the documented `os/exec`
semantics of `exec.Cmd.Env`: when the field is nil the child inherits the
parent process's environment, otherwise the child receives exactly the
given entries.  `none` models a nil slice (an absent `env` in the
configuration), `some` a non-nil one. -/
def spawnedChildEnv (parentEnv : List String) (env : Option (List String)) :
    List String :=
  match env with
  | none => parentEnv
  | some e => e

/-- The custom decode never fails: every branch of
`ToolCallResult.UnmarshalJSON` returns `nil`. -/
theorem toolCall_unmarshal_total (v : JsonVal) :
    ToolCallResult.unmarshalJSON v = .ok (decodeToolCallResult v) := by
  cases v with
  | obj fs =>
      cases h1 : decodeWrapperContent fs <;>
        cases h2 : goBoolField fs "isError" <;>
          simp [ToolCallResult.unmarshalJSON, decodeToolCallResult, h1, h2]
  | null => rfl
  | bool b => rfl
  | num n => rfl
  | str s => rfl
  | arr xs => rfl

/-- C10: `ToolCallResult` decoding is total: for every JSON input,
including values matching none of the three historical shapes (a number, a
boolean), `UnmarshalJSON` returns `nil` rather than an error; on such
inputs the content is empty and `isError` defaults to `false`. -/
theorem c10_decode_total :
    (∀ v : JsonVal, ∃ r, ToolCallResult.unmarshalJSON v = .ok r)
    ∧ ToolCallResult.unmarshalJSON (.num 5) = .ok ⟨[], false⟩
    ∧ ToolCallResult.unmarshalJSON (.bool true) = .ok ⟨[], false⟩ :=
  ⟨fun v => ⟨decodeToolCallResult v, toolCall_unmarshal_total v⟩, rfl, rfl⟩

/-- C5: the three historical `ToolCallResult` shapes all decode: a bare
string yields exactly one Text block with that text; an array of content
blocks flattens its text fragments in original order with non-text blocks
contributing zero characters; and an object with empty content and
`isError = true` yields `isError = true` with empty flattened text. -/
theorem c5_three_shapes_flatten :
    (∀ s : String,
      ToolCallResult.unmarshalJSON (.str s) = .ok ⟨[.text ⟨"text", s⟩], false⟩
      ∧ (decodeToolCallResult (.str s)).getText = s)
    ∧ (∀ a b : String,
      decodeToolCallResult (.arr
          [.obj [("type", .str "text"), ("text", .str a)],
           .obj [("type", .str "image"), ("data", .str "QUJD"),
                 ("mimeType", .str "image/png")],
           .obj [("type", .str "text"), ("text", .str b)]])
        = ⟨[.text ⟨"text", a⟩,
            .image ⟨"image", "QUJD", "image/png"⟩,
            .text ⟨"text", b⟩], false⟩
      ∧ (decodeToolCallResult (.arr
          [.obj [("type", .str "text"), ("text", .str a)],
           .obj [("type", .str "image"), ("data", .str "QUJD"),
                 ("mimeType", .str "image/png")],
           .obj [("type", .str "text"), ("text", .str b)]])).getText = a ++ b)
    ∧ (ToolCallResult.unmarshalJSON (.obj [("content", .arr []), ("isError", .bool true)])
        = .ok ⟨[], true⟩
      ∧ (decodeToolCallResult
          (.obj [("content", .arr []), ("isError", .bool true)])).getText = "") := by
  refine ⟨fun s => ⟨rfl, ?_⟩, fun a b => ⟨rfl, ?_⟩, rfl, rfl⟩
  · show String.join [s] = s
    simp [String.join]
  · show String.join [a, "", b] = a ++ b
    simp [String.join]

/-- The `tools/call` payload of the C2 counterexample: a successful RPC
round trip whose decoded result carries `isError = true` and the server
text `"boom"`. -/
def c2payload : JsonVal :=
  .obj [("content", .arr [.obj [("type", .str "text"), ("text", .str "boom")]]),
        ("isError", .bool true)]

/-- The full RPC response delivering `c2payload` as `result`. -/
def c2resp : JSONRPCResponse := ⟨"2.0", 3, some c2payload, none⟩

/-- C2 counterexample: for this successful round trip the decoded
`ToolCallResult` has `isError = true`, yet the adapter's `Execute` returns
a success-tagged host tool result (`isError = false`), not an error-tagged
one — `Client.CallTool` discards the flag. -/
theorem c2_cex_success_despite_isError :
    (decodeToolCallResult c2payload).isError = true
    ∧ ToolWrapper.Execute "t" (callToolHandle c2resp) = ⟨"boom", false⟩ :=
  ⟨rfl, rfl⟩

/-- C2 amended: for every tool call whose RPC round trip succeeds, the
adapter's `Execute` returns a success-tagged host tool result carrying the
flattened server text; the decoded `isError` flag is discarded by
`Client.CallTool` and never reaches the adapter. -/
theorem c2_amended_success_tagged_text_preserved :
    ∀ (ver : String) (i : Int) (v : JsonVal) (toolName : String),
      ToolWrapper.Execute toolName (callToolHandle ⟨ver, i, some v, none⟩)
        = NewToolResult (decodeToolCallResult v).getText := by
  intro ver i v toolName
  simp [callToolHandle, toolCall_unmarshal_total v, ToolWrapper.Execute]

/-- The RPC error of scenario D: `code -32602`, message `Invalid params`,
data `{"field": "name"}`. -/
def c3err : RPCError := ⟨-32602, "Invalid params", some (.obj [("field", .str "name")])⟩

/-- A `tools/call` response carrying `c3err`. -/
def c3resp : JSONRPCResponse := ⟨"2.0", 7, none, some c3err⟩

/-- C3 counterexample: for the scenario-D error response the adapter's
error-tagged result carries exactly
`MCP tool t error: tools/call error: Invalid params` — the message is
surfaced, but `error.data` is not rendered: neither `field` nor `name`
occurs in the surfaced text.  (`Client.CallTool` reads only
`resp.Error.Message`; `GetError`, which would render the data, is not on
this path.) -/
theorem c3_cex_data_not_rendered :
    ToolWrapper.Execute "t" (callToolHandle c3resp)
      = ⟨"MCP tool t error: tools/call error: Invalid params", true⟩
    ∧ ¬ ("field".toList <:+: "MCP tool t error: tools/call error: Invalid params".toList)
    ∧ ¬ ("name".toList <:+: "MCP tool t error: tools/call error: Invalid params".toList) :=
  ⟨rfl, by decide, by decide⟩

/-- C3 amended: for every RPC error response — whatever its `data` — the
error surfaced through the adapter is error-tagged and renders only the
error message, as `MCP tool name error: tools/call error: message`; the
`data` field is dropped on this path. -/
theorem c3_amended_message_only :
    ∀ (ver : String) (i : Int) (res : Option JsonVal) (code : Int)
      (msg : String) (d : Option JsonVal) (toolName : String),
      ToolWrapper.Execute toolName (callToolHandle ⟨ver, i, res, some ⟨code, msg, d⟩⟩)
        = ErrorResult ("MCP tool " ++ toolName ++ " error: " ++ ("tools/call error: " ++ msg)) :=
  fun _ _ _ _ _ _ _ => rfl

/-- A well-formed JSON frame with no `jsonrpc` field and with both
`result` and `error` present. -/
def c4frame : JsonVal :=
  .obj [("id", .num 1), ("result", .str "ok"),
        ("error", .obj [("code", .num (-32600)), ("message", .str "boom")])]

/-- A well-formed JSON frame whose `jsonrpc` field is `"1.0"`. -/
def c4frameVersion : JsonVal :=
  .obj [("jsonrpc", .str "1.0"), ("id", .num 2), ("result", .str "ok")]

/-- C4 counterexample: decoding an RPC envelope performs no protocol
validation.  A frame with `jsonrpc` missing decodes successfully (the
field defaults to `""`), a frame with `jsonrpc = "1.0"` decodes
successfully, and a frame carrying an id with both `result` and `error`
decodes successfully — none fails with a protocol-violation error, and
`Receive` returns each to the session. -/
theorem c4_cex_no_validation :
    JSONRPCResponse.unmarshalJSON c4frame
      = .ok ⟨"", 1, some (.str "ok"), some ⟨-32600, "boom", none⟩⟩
    ∧ JSONRPCResponse.unmarshalJSON c4frameVersion
      = .ok ⟨"1.0", 2, some (.str "ok"), none⟩ :=
  ⟨rfl, rfl⟩

/-- C4 amended: `JSONRPCResponse.UnmarshalJSON` is a plain field-wise
unmarshal: for every version string (including `""` for a missing field)
and for frames with both `result` and `error` present, decoding succeeds
and the frame is returned to the session; no protocol-violation check
exists. -/
theorem c4_amended_decode_permissive :
    ∀ (ver : String) (i : Int) (res : JsonVal) (code : Int) (msg : String),
      JSONRPCResponse.unmarshalJSON
          (.obj [("jsonrpc", .str ver), ("id", .num i), ("result", res),
                 ("error", .obj [("code", .num code), ("message", .str msg)])])
        = .ok ⟨ver, i, some res, some ⟨code, msg, none⟩⟩ :=
  fun _ _ _ _ _ => rfl

/-- C8 counterexample: a descriptor with an absent (`nil`) env list: the
child receives the parent's environment, not the empty list the claim
requires. -/
theorem c8_cex_parent_env_inherited :
    spawnedChildEnv ["HOME=/root"] none = ["HOME=/root"]
    ∧ ["HOME=/root"] ≠ ([] : List String) :=
  ⟨rfl, by decide⟩

/-- C8 amended: when the descriptor's env list is present (non-nil, even
empty) the child's environment is exactly that list and the parent's
environment is not inherited; when the list is absent (nil), Go's
`os/exec` falls back to the parent's environment. -/
theorem c8_amended_env_exact_when_present :
    (∀ p e : List String, spawnedChildEnv p (some e) = e)
    ∧ (∀ p : List String, spawnedChildEnv p none = p) :=
  ⟨fun _ _ => rfl, fun _ => rfl⟩

/-- C9: `IsInitialized` is equivalent to `requestID > 0`, not to the
internal `initialized` flag: after an `Initialize` attempt that failed
(here: the server answered with an RPC error), `IsInitialized` reports
`true` while `ListTools` and `CallTool` on the same session still fail
with the not-initialized error. -/
theorem c9_isInitialized_is_requestID_positive :
    (∀ s : ClientState, s.IsInitialized = true ↔ 0 < s.requestID)
    ∧ (∀ b' : ServerBehavior,
        (stepOp ClientState.start (.Initialize ⟨true, true, true⟩)).1.IsInitialized = true
        ∧ (stepOp ClientState.start (.Initialize ⟨true, true, true⟩)).1.initialized = false
        ∧ (stepOp (stepOp ClientState.start (.Initialize ⟨true, true, true⟩)).1
            (.ListTools b')).2.1 = false
        ∧ (stepOp (stepOp ClientState.start (.Initialize ⟨true, true, true⟩)).1
            (.CallTool b')).2.1 = false) := by
  constructor
  · intro s
    simp [ClientState.IsInitialized]
  · intro b'
    exact ⟨rfl, rfl, rfl, rfl⟩

/-- Inserting a fresh key into the client map appends it. -/
theorem mapInsert_not_mem (k : String) (v : List String) :
    ∀ m : List (String × List String), k ∉ m.map Prod.fst →
      mapInsert k v m = m ++ [(k, v)] := by
  intro m
  induction m with
  | nil => intro _; rfl
  | cons kv rest ih =>
      intro h
      obtain ⟨k', v'⟩ := kv
      simp only [List.map_cons, List.mem_cons] at h
      push_neg at h
      have hne : ¬ k' = k := fun hEq => h.1 hEq.symm
      simp [mapInsert, hne, ih h.2]

/-- The descriptors `Manager.Start` actually brings up: enabled and with a
successful connect-and-initialize. -/
def activeDescs (descs : List ServerDesc) : List ServerDesc :=
  descs.filter (fun d => d.enabled && d.outcome.succeeded)

/-- The wrapped tool names one successful descriptor registers. -/
def descTools (d : ServerDesc) : List String :=
  d.outcome.toolsOf.map (wrapperName d.name)

/-- Specification of the `Manager.Start` fold: starting from any manager
state whose client map avoids the incoming names, the fold appends one
client entry per active descriptor and registers exactly the active
descriptors' wrapped tools, in order. -/
theorem start_fold_spec :
    ∀ (descs : List ServerDesc) (m : ManagerState),
      (descs.map ServerDesc.name).Nodup →
      (∀ d ∈ descs, d.name ∉ m.clients.map Prod.fst) →
      (descs.foldl startStep m).clients.map Prod.fst
          = m.clients.map Prod.fst ++ (activeDescs descs).map ServerDesc.name
      ∧ (descs.foldl startStep m).registry
          = m.registry ++ (activeDescs descs).flatMap descTools := by
  intro descs
  induction descs with
  | nil => intro m _ _; simp [activeDescs]
  | cons d ds ih =>
      intro m hnd hdisj
      have hnd' : (ds.map ServerDesc.name).Nodup := (List.nodup_cons.mp hnd).2
      have hdmem : d.name ∉ m.clients.map Prod.fst := hdisj d (List.mem_cons_self d ds)
      by_cases hen : d.enabled
      · cases hout : d.outcome with
        | ok ts =>
            have hpred : (d.enabled && d.outcome.succeeded) = true := by
              simp [hen, hout, ConnOutcome.succeeded]
            have hstep : startStep m d =
                ⟨mapInsert d.name ts m.clients,
                 m.registry ++ ts.map (wrapperName d.name)⟩ := by
              simp [startStep, hen, hout]
            have hkeys : (mapInsert d.name ts m.clients).map Prod.fst
                = m.clients.map Prod.fst ++ [d.name] := by
              rw [mapInsert_not_mem d.name ts m.clients hdmem]
              simp
            have hdisj' : ∀ x ∈ ds,
                x.name ∉ (mapInsert d.name ts m.clients).map Prod.fst := by
              intro x hx
              rw [hkeys]
              simp only [List.mem_append, List.mem_singleton]
              push_neg
              refine ⟨hdisj x (List.mem_cons_of_mem d hx), ?_⟩
              intro hEq
              exact (List.nodup_cons.mp hnd).1 (hEq ▸ List.mem_map_of_mem ServerDesc.name hx)
            have hrec := ih ⟨mapInsert d.name ts m.clients,
                m.registry ++ ts.map (wrapperName d.name)⟩ hnd' hdisj'
            constructor
            · rw [List.foldl_cons, hstep]
              rw [hrec.1, hkeys]
              simp [activeDescs, List.filter_cons, hen, ConnOutcome.succeeded, hout]
            · rw [List.foldl_cons, hstep]
              rw [hrec.2]
              simp [activeDescs, List.filter_cons, hen, ConnOutcome.succeeded,
                descTools, hout, ConnOutcome.toolsOf]
        | connectFail =>
            have hstep : startStep m d = m := by simp [startStep, hen, hout]
            have hrec := ih m hnd' (fun x hx => hdisj x (List.mem_cons_of_mem d hx))
            have hpred : (d.enabled && d.outcome.succeeded) = false := by
              simp [hout, ConnOutcome.succeeded]
            constructor
            · rw [List.foldl_cons, hstep, hrec.1]
              simp [activeDescs, List.filter_cons, hpred]
            · rw [List.foldl_cons, hstep, hrec.2]
              simp [activeDescs, List.filter_cons, hpred]
        | initFail =>
            have hstep : startStep m d = m := by simp [startStep, hen, hout]
            have hrec := ih m hnd' (fun x hx => hdisj x (List.mem_cons_of_mem d hx))
            have hpred : (d.enabled && d.outcome.succeeded) = false := by
              simp [hout, ConnOutcome.succeeded]
            constructor
            · rw [List.foldl_cons, hstep, hrec.1]
              simp [activeDescs, List.filter_cons, hpred]
            · rw [List.foldl_cons, hstep, hrec.2]
              simp [activeDescs, List.filter_cons, hpred]
      · have hstep : startStep m d = m := by simp [startStep, hen]
        have hrec := ih m hnd' (fun x hx => hdisj x (List.mem_cons_of_mem d hx))
        have hpred : (d.enabled && d.outcome.succeeded) = false := by
          simp [hen]
        constructor
        · rw [List.foldl_cons, hstep, hrec.1]
          simp [activeDescs, List.filter_cons, hpred]
        · rw [List.foldl_cons, hstep, hrec.2]
          simp [activeDescs, List.filter_cons, hpred]

/-- C6: for every fleet configuration with distinct server names,
`Manager.Start` returns success unconditionally, registers exactly one
session per enabled descriptor that connected and initialized (so with
`N` enabled descriptors of which `k` fail, exactly `N − k` name entries
are active), skips disabled descriptors, and the registered tools are
exactly the succeeded descriptors' wrapped tools — a failure of one server
removes nothing from the others' registrations. -/
theorem c6_fleet_failure_isolation :
    ∀ descs : List ServerDesc, (descs.map ServerDesc.name).Nodup →
      (managerStart descs).2 = true
      ∧ (managerStart descs).1.clients.length = (activeDescs descs).length
      ∧ (managerStart descs).1.clients.map Prod.fst
          = (activeDescs descs).map ServerDesc.name
      ∧ (managerStart descs).1.registry = (activeDescs descs).flatMap descTools := by
  intro descs hnd
  have h := start_fold_spec descs ⟨[], []⟩ hnd (by intro d _; simp)
  refine ⟨rfl, ?_, ?_, ?_⟩
  · have := congrArg List.length h.1
    simpa [managerStart] using this
  · simpa [managerStart] using h.1
  · simpa [managerStart] using h.2

/-- Witness for C6: four descriptors, three enabled, one of which fails to
connect; exactly two sessions and their four wrapped tools register. -/
theorem c6_fleet_failure_isolation_witness :
    (([⟨"fs", true, .ok ["read_file", "write_file"]⟩,
       ⟨"bad", true, .connectFail⟩,
       ⟨"db", true, .ok ["query", "schema"]⟩,
       ⟨"off", false, .ok ["x"]⟩] : List ServerDesc).map ServerDesc.name).Nodup
    ∧ ((managerStart [⟨"fs", true, .ok ["read_file", "write_file"]⟩,
          ⟨"bad", true, .connectFail⟩,
          ⟨"db", true, .ok ["query", "schema"]⟩,
          ⟨"off", false, .ok ["x"]⟩]).2 = true
      ∧ (managerStart [⟨"fs", true, .ok ["read_file", "write_file"]⟩,
          ⟨"bad", true, .connectFail⟩,
          ⟨"db", true, .ok ["query", "schema"]⟩,
          ⟨"off", false, .ok ["x"]⟩]).1.clients.length
          = (activeDescs [⟨"fs", true, .ok ["read_file", "write_file"]⟩,
              ⟨"bad", true, .connectFail⟩,
              ⟨"db", true, .ok ["query", "schema"]⟩,
              ⟨"off", false, .ok ["x"]⟩]).length
      ∧ (managerStart [⟨"fs", true, .ok ["read_file", "write_file"]⟩,
          ⟨"bad", true, .connectFail⟩,
          ⟨"db", true, .ok ["query", "schema"]⟩,
          ⟨"off", false, .ok ["x"]⟩]).1.clients.map Prod.fst
          = (activeDescs [⟨"fs", true, .ok ["read_file", "write_file"]⟩,
              ⟨"bad", true, .connectFail⟩,
              ⟨"db", true, .ok ["query", "schema"]⟩,
              ⟨"off", false, .ok ["x"]⟩]).map ServerDesc.name
      ∧ (managerStart [⟨"fs", true, .ok ["read_file", "write_file"]⟩,
          ⟨"bad", true, .connectFail⟩,
          ⟨"db", true, .ok ["query", "schema"]⟩,
          ⟨"off", false, .ok ["x"]⟩]).1.registry
          = (activeDescs [⟨"fs", true, .ok ["read_file", "write_file"]⟩,
              ⟨"bad", true, .connectFail⟩,
              ⟨"db", true, .ok ["query", "schema"]⟩,
              ⟨"off", false, .ok ["x"]⟩]).flatMap descTools) :=
  ⟨by decide, c6_fleet_failure_isolation _ (by decide)⟩

/-- Once the transport is closed and the session deinitialized, every
further operation keeps it so: the transport never reopens and
`initialized` can never be set again (a later `Initialize` fails at
`Send`). -/
theorem stepOp_closed_uninit (s : ClientState) (op : SessionOp)
    (hc : s.transportClosed = true) (hi : s.initialized = false) :
    (stepOp s op).1.transportClosed = true ∧ (stepOp s op).1.initialized = false := by
  cases op <;> simp [stepOp, hc, hi]

/-- The closed-and-deinitialized state is preserved by any whole operation
sequence. -/
theorem runFrom_closed_uninit (ops : List SessionOp) :
    ∀ s : ClientState, s.transportClosed = true → s.initialized = false →
      (runFrom s ops).1.transportClosed = true
      ∧ (runFrom s ops).1.initialized = false := by
  induction ops with
  | nil => intro s hc hi; exact ⟨hc, hi⟩
  | cons op rest ih =>
      intro s hc hi
      have h := stepOp_closed_uninit s op hc hi
      simpa [runFrom] using ih (stepOp s op).1 h.1 h.2

/-- The final state of a run over appended sequences is the final state of
running the second sequence from the first's final state. -/
theorem runFrom_fst_append (xs ys : List SessionOp) :
    ∀ s : ClientState, (runFrom s (xs ++ ys)).1 = (runFrom (runFrom s xs).1 ys).1 := by
  induction xs with
  | nil => intro s; simp [runFrom]
  | cons op rest ih => intro s; simp [runFrom, ih]

/-- `Close` always leaves the session closed and deinitialized. -/
theorem stepOp_Close_state (s : ClientState) :
    (stepOp s SessionOp.Close).1.transportClosed = true
    ∧ (stepOp s SessionOp.Close).1.initialized = false := by
  by_cases hc : s.transportClosed <;> simp [stepOp, hc]

/-- C7: after `Close` has been invoked on a session, no subsequent
`ListTools` or `CallTool` succeeds — whatever operations happen in
between — and invoking `Close` again is a no-op returning success (state
unchanged, no transport action); and on an open transport, `Close` closes
the child's stdin and then waits on the child process, in that order,
before returning success. -/
theorem c7_close_semantics :
    (∀ (ops1 ops2 : List SessionOp) (b : ServerBehavior),
      (stepOp (runOps (ops1 ++ SessionOp.Close :: ops2)).1 (.ListTools b)).2.1 = false
      ∧ (stepOp (runOps (ops1 ++ SessionOp.Close :: ops2)).1 (.CallTool b)).2.1 = false
      ∧ stepOp (runOps (ops1 ++ SessionOp.Close :: ops2)).1 SessionOp.Close
          = ((runOps (ops1 ++ SessionOp.Close :: ops2)).1, true, []))
    ∧ (∀ s : ClientState, s.transportClosed = false →
        stepOp s SessionOp.Close
          = (⟨s.requestID, false, true⟩, true, [.stdinClosed, .processWaited])) := by
  constructor
  · intro ops1 ops2 b
    have hmid := stepOp_Close_state (runFrom ClientState.start ops1).1
    have hfin := runFrom_closed_uninit ops2
        (stepOp (runFrom ClientState.start ops1).1 SessionOp.Close).1 hmid.1 hmid.2
    have hs : (runOps (ops1 ++ SessionOp.Close :: ops2)).1
        = (runFrom (stepOp (runFrom ClientState.start ops1).1 SessionOp.Close).1 ops2).1 := by
      simp [runOps, runFrom_fst_append, runFrom]
    rw [hs]
    rcases hst : (runFrom (stepOp (runFrom ClientState.start ops1).1 SessionOp.Close).1 ops2).1
      with ⟨rid, ini, tcl⟩
    rw [hst] at hfin
    obtain ⟨hc, hi⟩ := hfin
    subst hc; subst hi
    refine ⟨rfl, rfl, rfl⟩
  · intro s h
    simp [stepOp, h]

/-- Witness for C7: closing a fresh session closes stdin, waits on the
child, and returns success. -/
theorem c7_close_semantics_witness :
    ClientState.start.transportClosed = false
    ∧ stepOp ClientState.start SessionOp.Close
        = (⟨0, false, true⟩, true, [.stdinClosed, .processWaited]) :=
  ⟨rfl, c7_close_semantics.2 ClientState.start rfl⟩

/-- `wireRequestIds` distributes over concatenated event lists. -/
theorem wireRequestIds_append (a b : List WireEvent) :
    wireRequestIds (a ++ b) = wireRequestIds a ++ wireRequestIds b :=
  List.filterMap_append a b _

/-- On a closed transport no operation emits a correlated frame, and the
transport stays closed. -/
theorem stepOp_closed_no_wire (s : ClientState) (op : SessionOp)
    (hc : s.transportClosed = true) :
    (stepOp s op).1.transportClosed = true
    ∧ wireRequestIds (stepOp s op).2.2 = [] := by
  cases op <;> by_cases hin : s.initialized <;>
    simp [stepOp, hc, hin, wireRequestIds]

/-- Once the transport is closed, an entire run emits no correlated
frame. -/
theorem runFrom_closed_no_wire (ops : List SessionOp) :
    ∀ s : ClientState, s.transportClosed = true →
      wireRequestIds (runFrom s ops).2 = [] := by
  induction ops with
  | nil => intro s _; rfl
  | cons op rest ih =>
      intro s hc
      have h := stepOp_closed_no_wire s op hc
      simp [runFrom, wireRequestIds_append, h.2, ih (stepOp s op).1 h.1]

/-- `Initialize` on an open transport: the counter advances by
`int64Inc`, the transport stays open, and exactly one correlated frame
carrying the new counter value goes out. -/
theorem stepOp_Init_open (s : ClientState) (b : ServerBehavior)
    (hc : s.transportClosed = false) :
    (stepOp s (.Initialize b)).1.requestID = int64Inc s.requestID
    ∧ (stepOp s (.Initialize b)).1.transportClosed = false
    ∧ wireRequestIds (stepOp s (.Initialize b)).2.2 = [int64Inc s.requestID] := by
  by_cases hr : b.recvOk <;> by_cases he : b.respError <;> by_cases hk : b.resultOk <;>
    simp [stepOp, hc, hr, he, hk, wireRequestIds]

/-- `ListTools` on an initialized session with an open transport: same
wire shape as `Initialize`. -/
theorem stepOp_List_open (s : ClientState) (b : ServerBehavior)
    (hc : s.transportClosed = false) (hin : s.initialized = true) :
    (stepOp s (.ListTools b)).1.requestID = int64Inc s.requestID
    ∧ (stepOp s (.ListTools b)).1.transportClosed = false
    ∧ wireRequestIds (stepOp s (.ListTools b)).2.2 = [int64Inc s.requestID] := by
  by_cases hr : b.recvOk <;> by_cases he : b.respError <;> by_cases hk : b.resultOk <;>
    simp [stepOp, hc, hin, hr, he, hk, wireRequestIds]

/-- `CallTool` on an initialized session with an open transport: same
wire shape as `Initialize`. -/
theorem stepOp_Call_open (s : ClientState) (b : ServerBehavior)
    (hc : s.transportClosed = false) (hin : s.initialized = true) :
    (stepOp s (.CallTool b)).1.requestID = int64Inc s.requestID
    ∧ (stepOp s (.CallTool b)).1.transportClosed = false
    ∧ wireRequestIds (stepOp s (.CallTool b)).2.2 = [int64Inc s.requestID] := by
  by_cases hr : b.recvOk <;> by_cases he : b.respError <;> by_cases hk : b.resultOk <;>
    simp [stepOp, hc, hin, hr, he, hk, wireRequestIds]

/-- Shift lemma for consecutive integer id lists. -/
theorem range_map_shift (a : Int) (m : Nat) :
    (List.range (m + 1)).map (fun k : Nat => a + (k : Int) + 1)
      = (a + 1) :: (List.range m).map (fun k : Nat => (a + 1) + (k : Int) + 1) := by
  rw [List.range_succ_eq_map, List.map_cons, List.map_map]
  refine congrArg₂ List.cons (by push_cast; ring) ?_
  refine List.map_congr_left ?_
  intro k _
  show a + ((Nat.succ k : Nat) : Int) + 1 = (a + 1) + (k : Int) + 1
  push_cast
  ring

/-- Core invariant behind C1: running any operation sequence from an open
state whose counter is `r ≥ 0` and cannot overflow within the sequence
emits, as correlated request ids, exactly the consecutive integers
`r + 1, r + 2, …` for some number `m` of correlated sends. -/
theorem runFrom_wire_spec (ops : List SessionOp) :
    ∀ s : ClientState, s.transportClosed = false → 0 ≤ s.requestID →
      s.requestID + ops.length ≤ INT64_MAX →
      ∃ m : Nat, wireRequestIds (runFrom s ops).2
        = (List.range m).map (fun k : Nat => s.requestID + (k : Int) + 1) := by
  induction ops with
  | nil => intro s _ _ _; exact ⟨0, rfl⟩
  | cons op rest ih =>
      intro s hc hpos hbound
      have hlen : ((op :: rest).length : Int) = (rest.length : Int) + 1 := by simp
      have hlt : s.requestID < INT64_MAX := by omega
      have hinc : int64Inc s.requestID = s.requestID + 1 := by
        unfold int64Inc
        rw [if_neg (by omega)]
      have hrun : wireRequestIds (runFrom s (op :: rest)).2
          = wireRequestIds (stepOp s op).2.2
            ++ wireRequestIds (runFrom (stepOp s op).1 rest).2 := by
        simp [runFrom, wireRequestIds_append]
      have hboundRest : s.requestID + 1 + rest.length ≤ INT64_MAX := by omega
      have hboundRestSame : s.requestID + rest.length ≤ INT64_MAX := by omega
      -- the incrementing-and-open case, shared by three operations
      have hcorr : ∀ op' : SessionOp,
          (stepOp s op').1.requestID = int64Inc s.requestID →
          (stepOp s op').1.transportClosed = false →
          wireRequestIds (stepOp s op').2.2 = [int64Inc s.requestID] →
          ∃ m : Nat, wireRequestIds (runFrom s (op' :: rest)).2
            = (List.range m).map (fun k : Nat => s.requestID + (k : Int) + 1) := by
        intro op' h1 h2 h3
        obtain ⟨m', hm'⟩ := ih (stepOp s op').1 h2
          (by rw [h1, hinc]; omega) (by rw [h1, hinc]; exact hboundRest)
        refine ⟨m' + 1, ?_⟩
        have hrun' : wireRequestIds (runFrom s (op' :: rest)).2
            = wireRequestIds (stepOp s op').2.2
              ++ wireRequestIds (runFrom (stepOp s op').1 rest).2 := by
          simp [runFrom, wireRequestIds_append]
        rw [hrun', h3, hm', h1, hinc, range_map_shift]
        rfl
      cases op with
      | Initialize b =>
          obtain ⟨h1, h2, h3⟩ := stepOp_Init_open s b hc
          exact hcorr (.Initialize b) h1 h2 h3
      | ListTools b =>
          by_cases hin : s.initialized
          · obtain ⟨h1, h2, h3⟩ := stepOp_List_open s b hc hin
            exact hcorr (.ListTools b) h1 h2 h3
          · have hstep : stepOp s (.ListTools b) = (s, false, []) := by
              simp [stepOp, hin]
            obtain ⟨m', hm'⟩ := ih s hc hpos hboundRestSame
            exact ⟨m', by rw [hrun, hstep]; simpa [wireRequestIds] using hm'⟩
      | CallTool b =>
          by_cases hin : s.initialized
          · obtain ⟨h1, h2, h3⟩ := stepOp_Call_open s b hc hin
            exact hcorr (.CallTool b) h1 h2 h3
          · have hstep : stepOp s (.CallTool b) = (s, false, []) := by
              simp [stepOp, hin]
            obtain ⟨m', hm'⟩ := ih s hc hpos hboundRestSame
            exact ⟨m', by rw [hrun, hstep]; simpa [wireRequestIds] using hm'⟩
      | Shutdown =>
          by_cases hin : s.initialized
          · have hstep : stepOp s SessionOp.Shutdown
                = ({ s with requestID := int64Inc s.requestID, transportClosed := true },
                   true,
                   [.sent (some (int64Inc s.requestID)) "shutdown",
                    .stdinClosed, .processWaited]) := by
              simp [stepOp, hin, hc]
            have hrest : wireRequestIds
                (runFrom (stepOp s SessionOp.Shutdown).1 rest).2 = [] := by
              apply runFrom_closed_no_wire
              rw [hstep]
            refine ⟨1, ?_⟩
            rw [hrun, hrest, hstep]
            simp [wireRequestIds, hinc, List.range_succ]
          · have hstep : stepOp s SessionOp.Shutdown = (s, true, []) := by
              simp [stepOp, hin]
            obtain ⟨m', hm'⟩ := ih s hc hpos hboundRestSame
            exact ⟨m', by rw [hrun, hstep]; simpa [wireRequestIds] using hm'⟩
      | Close =>
          have hstep : stepOp s SessionOp.Close
              = ({ s with initialized := false, transportClosed := true },
                 true, [.stdinClosed, .processWaited]) := by
            simp [stepOp, hc]
          have hrest : wireRequestIds
              (runFrom (stepOp s SessionOp.Close).1 rest).2 = [] := by
            apply runFrom_closed_no_wire
            rw [hstep]
          refine ⟨0, ?_⟩
          rw [hrun, hrest, hstep]
          simp [wireRequestIds]

/-- C1: for every operation sequence on a fresh session (short enough for
the `int64` counter not to overflow), the correlated request ids on the
wire are exactly `1, 2, …, m` in order — unique within the session,
strictly increasing (each id strictly greater than every id previously
sent), starting from 1. -/
theorem c1_request_ids_strictly_increasing (ops : List SessionOp)
    (hlen : (ops.length : Int) ≤ INT64_MAX) :
    (∃ m : Nat, wireRequestIds (runOps ops).2
        = (List.range m).map (fun k : Nat => (k : Int) + 1))
    ∧ List.Pairwise (· < ·) (wireRequestIds (runOps ops).2)
    ∧ (wireRequestIds (runOps ops).2).Nodup := by
  obtain ⟨m, hm⟩ := runFrom_wire_spec ops ClientState.start rfl (le_refl 0)
    (by simpa [ClientState.start] using hlen)
  have hm' : wireRequestIds (runOps ops).2
      = (List.range m).map (fun k : Nat => (k : Int) + 1) := by
    refine hm.trans (List.map_congr_left ?_)
    intro k _
    show ClientState.start.requestID + (k : Int) + 1 = (k : Int) + 1
    simp [ClientState.start]
  have hpair : List.Pairwise (· < ·) (wireRequestIds (runOps ops).2) := by
    rw [hm']
    refine List.Pairwise.map _ ?_ (List.pairwise_lt_range m)
    intro a b hab
    omega
  exact ⟨⟨m, hm'⟩, hpair, hpair.imp (fun hab => ne_of_lt hab)⟩

/-- Witness for C1: the canonical handshake-then-work sequence satisfies
the no-overflow bound and the conclusion. -/
theorem c1_request_ids_strictly_increasing_witness :
    ((([SessionOp.Initialize ⟨true, false, true⟩,
        SessionOp.ListTools ⟨true, false, true⟩,
        SessionOp.CallTool ⟨true, false, true⟩,
        SessionOp.Shutdown] : List SessionOp).length : Int) ≤ INT64_MAX)
    ∧ ((∃ m : Nat, wireRequestIds (runOps
          [SessionOp.Initialize ⟨true, false, true⟩,
           SessionOp.ListTools ⟨true, false, true⟩,
           SessionOp.CallTool ⟨true, false, true⟩,
           SessionOp.Shutdown]).2
          = (List.range m).map (fun k : Nat => (k : Int) + 1))
      ∧ List.Pairwise (· < ·) (wireRequestIds (runOps
          [SessionOp.Initialize ⟨true, false, true⟩,
           SessionOp.ListTools ⟨true, false, true⟩,
           SessionOp.CallTool ⟨true, false, true⟩,
           SessionOp.Shutdown]).2)
      ∧ (wireRequestIds (runOps
          [SessionOp.Initialize ⟨true, false, true⟩,
           SessionOp.ListTools ⟨true, false, true⟩,
           SessionOp.CallTool ⟨true, false, true⟩,
           SessionOp.Shutdown]).2).Nodup) :=
  ⟨by decide, c1_request_ids_strictly_increasing _ (by decide)⟩

/-- Concrete evaluation: the canonical sequence's wire ids are
`[1, 2, 3, 4]`. -/
theorem c1_wire_ids_concrete :
    wireRequestIds (runOps
        [SessionOp.Initialize ⟨true, false, true⟩,
         SessionOp.ListTools ⟨true, false, true⟩,
         SessionOp.CallTool ⟨true, false, true⟩,
         SessionOp.Shutdown]).2 = [1, 2, 3, 4] := by
  decide
